import Mathlib

namespace DockingViewport

/-! ## Render-target texture (`bevy::render::texture::Image`)

The viewport image is created with format `Bgra8UnormSrgb` (4 bytes per
pixel) and `Extent3d { width, height, depth_or_array_layers: 1 }`.
`Image::resize` sets the descriptor size and calls
`data.resize(volume * pixel_size, 0)` on the backing byte buffer
(`Vec::resize`: truncate, or pad with zeroes). -/

structure Image where
  width : Nat
  height : Nat
  data : List Nat

/-- `Vec::resize(n, 0)`: keep the first `n` bytes, pad with zeroes. -/
def listResize (l : List Nat) (n : Nat) : List Nat :=
  l.take n ++ List.replicate (n - l.length) 0

/-- `Image::resize(Extent3d { width, height, .. })` with pixel size 4
(`Bgra8UnormSrgb`) and depth 1. -/
def Image.resize (img : Image) (w h : Nat) : Image :=
  { width := w, height := h, data := listResize img.data (w * h * 4) }

/-- The texture allocated by `setup_viewport`: 512×512, zero-filled. -/
def startupImage : Image :=
  { width := 512, height := 512, data := List.replicate (512 * 512 * 4) 0 }

/-- The viewport resize routine inlined in the `"Viewport"` arm of
`TabViewer::ui` (the spec's `sync_size`):

```rust
if self.viewport_image.size().as_uvec2() != viewport_size.as_uvec2() {
    let size = Extent3d {
        width: viewport_size.x as u32 * self.window_scale_factor as u32,
        height: viewport_size.y as u32 * self.window_scale_factor as u32,
        ..default()
    };
    self.viewport_image.resize(size);
}
```

`scale` is the window scale factor after its `as u32` cast, `obsW`/`obsH`
the observed panel size after `as u32`; the `u32` products wrap mod
`2 ^ 32`. -/
def syncSize (scale obsW obsH : Nat) (img : Image) : Image :=
  if (img.width, img.height) ≠ (obsW, obsH) then
    img.resize (obsW * scale % 2 ^ 32) (obsH * scale % 2 ^ 32)
  else
    img

/-! ## Cube material (`StandardMaterial`, `bevy::render::color::Color`)

Every `Color` value this program ever stores in `base_color` is of the
`Color::Rgba` variant: `setup_scene` writes `Color::rgb(0.8, 0.7, 0.6)`
and the `"Scene Control"` arm writes `color.into()` for a
`[f32; 4]` array, which is `Color::rgba(..)`.  So the model carries the
`Rgba` variant only, with exact rational components.  On this variant
`Color::as_rgba_f32` returns the four stored components unchanged (no
color-space conversion), and `From<[f32; 4]>` rebuilds `Rgba` from them,
both exactly. -/

structure MColor where
  red : ℚ
  green : ℚ
  blue : ℚ
  alpha : ℚ

/-- `Color::as_rgba_f32` on the `Rgba` variant: the components. -/
def MColor.asRgbaF32 (c : MColor) : ℚ × ℚ × ℚ × ℚ :=
  (c.red, c.green, c.blue, c.alpha)

/-- `impl From<[f32; 4]> for Color`: `Color::rgba(r, g, b, a)`. -/
def colorFromArray (a : ℚ × ℚ × ℚ × ℚ) : MColor :=
  { red := a.1, green := a.2.1, blue := a.2.2.1, alpha := a.2.2.2 }

/-- The fields of `StandardMaterial` that `setup_scene` sets. -/
structure Material where
  base_color : MColor
  reflectance : ℚ
  unlit : Bool

/-- The cube material created by `setup_scene`
(`base_color: Color::rgb(0.8, 0.7, 0.6), reflectance: 0.02, unlit: false`;
the `f32` literals are modelled by the corresponding rationals). -/
def initialCubeMaterial : Material :=
  { base_color := { red := 8/10, green := 7/10, blue := 6/10, alpha := 1 },
    reflectance := 2/100,
    unlit := false }

/-! ## Tab renderer (`impl egui_dock::TabViewer for TabViewer<'_>`) -/

/-- GUI draw output emitted by one tab's `ui` callback. -/
inductive DrawCmd where
  | image (texId : Nat) (w h : Nat)
  | labelText (s : String)
  | colorEditButton
  | horizontal (cmds : List DrawCmd)

/-- The state the `TabViewer` struct borrows mutably. -/
structure TabViewerState where
  viewport_image : Image
  viewport_tex_id : Nat
  window_scale_factor : Nat
  cube_material : Material

/-- Frame-local GUI input: the available panel size reported by egui
(after `as u32`) and the color-picker interaction for this frame
(`some c` when the user edited the color to `c`, `none` otherwise;
`color_edit_button_rgba_unmultiplied` leaves its argument untouched when
there is no edit). -/
structure UiInput where
  avail_width : Nat
  avail_height : Nat
  color_edit : Option (ℚ × ℚ × ℚ × ℚ)

/-- The `"Scene Control"` arm of `TabViewer::ui`:

```rust
let mut color = self.cube_material.base_color.as_rgba_f32();
ui.horizontal(|ui| {
    ui.label("Edit Cube Color:");
    ui.color_edit_button_rgba_unmultiplied(&mut color);
});
self.cube_material.base_color = color.into();
```
-/
def sceneControlTab (mat : Material) (edit : Option (ℚ × ℚ × ℚ × ℚ)) :
    Material × List DrawCmd :=
  let color := mat.base_color.asRgbaF32
  let color := match edit with
    | some c => c
    | none => color
  ({ mat with base_color := colorFromArray color },
   [DrawCmd.horizontal [DrawCmd.labelText "Edit Cube Color:", DrawCmd.colorEditButton]])

/-- `TabViewer::ui`: dispatch on the tab's name.  Returns the updated
borrowed state together with the draw output. -/
def tabViewerUi (st : TabViewerState) (inp : UiInput) (tab : String) :
    TabViewerState × List DrawCmd :=
  match tab with
  | "Viewport" =>
    let img := syncSize st.window_scale_factor inp.avail_width inp.avail_height
      st.viewport_image
    ({ st with viewport_image := img },
     [DrawCmd.image st.viewport_tex_id inp.avail_width inp.avail_height])
  | "Scene Control" =>
    let r := sceneControlTab st.cube_material inp.color_edit
    ({ st with cube_material := r.1 }, r.2)
  | _ => (st, [DrawCmd.labelText ("Content of " ++ tab)])

/-- A viewport state whose texture already matches the observed size:
the startup 512×512 texture observed at 512×512, scale factor 1. -/
def matchedViewportState : TabViewerState :=
  { viewport_image := startupImage,
    viewport_tex_id := 0,
    window_scale_factor := 1,
    cube_material := initialCubeMaterial }

/-- An observed panel size of 512×512 with no color interaction. -/
def matchedViewportInput : UiInput :=
  { avail_width := 512, avail_height := 512, color_edit := none }

/-- A texture of exactly 800×600 physical pixels at window scale factor 2,
reached from the startup texture by one `"Viewport"` render that observed
a 400×300 panel (the resize branch allocates `400*2 × 300*2`). -/
def scaleTwoViewportState : TabViewerState :=
  { viewport_image := syncSize 2 400 300 startupImage,
    viewport_tex_id := 0,
    window_scale_factor := 2,
    cube_material := initialCubeMaterial }

/-- An observed panel size of 800×600 with no color interaction. -/
def viewport800Input : UiInput :=
  { avail_width := 800, avail_height := 600, color_edit := none }

/-! ## Cube rotation (`rotate_cube`)

`rotate_cube` runs once per frame:

```rust
transform.rotate_x(1.5 * time.delta_seconds());
transform.rotate_z(1.3 * time.delta_seconds());
```

`Transform::rotate_x(a)` premultiplies the orientation quaternion by
`Quat::from_rotation_x(a)` (glam: `(sin(a/2), 0, 0, cos(a/2))` in
`x,y,z,w` order), and likewise for `rotate_z`.  The `f32` trigonometry is
modelled over the reals. -/

@[ext]
structure Quat where
  w : ℝ
  x : ℝ
  y : ℝ
  z : ℝ

noncomputable section

/-- Hamilton quaternion product (glam `Quat` multiplication). -/
def quatMul (p q : Quat) : Quat :=
  { w := p.w * q.w - p.x * q.x - p.y * q.y - p.z * q.z,
    x := p.w * q.x + p.x * q.w + p.y * q.z - p.z * q.y,
    y := p.w * q.y - p.x * q.z + p.y * q.w + p.z * q.x,
    z := p.w * q.z + p.x * q.y - p.y * q.x + p.z * q.w }

/-- `Quat::from_rotation_x(a)`. -/
def fromRotationX (a : ℝ) : Quat :=
  { w := Real.cos (a / 2), x := Real.sin (a / 2), y := 0, z := 0 }

/-- `Quat::from_rotation_z(a)`. -/
def fromRotationZ (a : ℝ) : Quat :=
  { w := Real.cos (a / 2), x := 0, y := 0, z := Real.sin (a / 2) }

/-- `Transform::rotate_x(a)`: `rotation = from_rotation_x(a) * rotation`. -/
def rotateX (a : ℝ) (q : Quat) : Quat := quatMul (fromRotationX a) q

/-- `Transform::rotate_z(a)`: `rotation = from_rotation_z(a) * rotation`. -/
def rotateZ (a : ℝ) (q : Quat) : Quat := quatMul (fromRotationZ a) q

/-- `Quat::IDENTITY`, the cube's orientation after `setup_scene`
(`Transform::from_translation` leaves rotation at the identity). -/
def quatId : Quat := { w := 1, x := 0, y := 0, z := 0 }

/-- One frame of `rotate_cube` with elapsed time `delta`. -/
def rotateCubeStep (delta : ℝ) (q : Quat) : Quat :=
  rotateZ (1.3 * delta) (rotateX (1.5 * delta) q)

/-- Running `rotate_cube` once per frame over a list of per-frame deltas. -/
def rotateCubeFrames (deltas : List ℝ) (q : Quat) : Quat :=
  deltas.foldl (fun q d => rotateCubeStep d q) q

/-- The x-axis half of the per-frame update, iterated on its own. -/
def rotateXFrames (deltas : List ℝ) (q : Quat) : Quat :=
  deltas.foldl (fun q d => rotateX (1.5 * d) q) q

/-- The z-axis half of the per-frame update, iterated on its own. -/
def rotateZFrames (deltas : List ℝ) (q : Quat) : Quat :=
  deltas.foldl (fun q d => rotateZ (1.3 * d) q) q

end

/-! ## Tab registry (docking tree)

The tree operations (`Tree::new`, `split_left`, `split_below`,
`find_tab`, `remove_tab`, `push_to_focused_leaf`) live in the external
`egui_dock` crate, which is not part of this repository's sources.
Following spec §4.1 they are modelled here: a binary-split tree whose
leaves hold ordered tab lists, a focused-leaf pointer, first-match
lookup, removal with empty-leaf collapse into the sibling, and insertion
into the focused leaf (or the root/first leaf when none is focused).
Locations are paths (`List Bool`, `false` = first child) plus a tab
index. -/

/-- Modelled from the spec: the split direction of an internal node
(only `split_left` and `split_below` are used by `setup_docktree`). -/
inductive SplitDir where
  | left
  | below
deriving DecidableEq

/-- Modelled from the spec: the tab-registry tree — leaves hold ordered
sequences of tab names, internal nodes record a split direction and
proportion. -/
inductive DockNode where
  | leaf (tabs : List String)
  | split (dir : SplitDir) (fraction : ℚ) (a b : DockNode)
deriving DecidableEq

/-- Number of occurrences of the tab name `n` in a list of tab names. -/
def countTab (n : String) : List String → Nat
  | [] => 0
  | t :: ts => (if t = n then 1 else 0) + countTab n ts

/-- Index of the first occurrence of `n`, if any (first-match lookup
within one leaf). -/
def firstIdx (n : String) : List String → Option Nat
  | [] => none
  | t :: ts => if t = n then some 0 else (firstIdx n ts).map (fun i => i + 1)

/-- All tab names in the tree, leaves visited first-child-first. -/
def DockNode.allTabs : DockNode → List String
  | .leaf ts => ts
  | .split _ _ a b => a.allTabs ++ b.allTabs

/-- Modelled from the spec: `find(name)` — linear search over the
tree's leaves returning the first structural location (leaf path and
slot index) whose tab name equals `name`, or nothing. -/
def DockNode.findTabNode : DockNode → String → Option (List Bool × Nat)
  | .leaf ts, n => (firstIdx n ts).map (fun i => (([] : List Bool), i))
  | .split _ _ a b, n =>
    match a.findTabNode n with
    | some (p, i) => some (false :: p, i)
    | none =>
      match b.findTabNode n with
      | some (p, i) => some (true :: p, i)
      | none => none

/-- Rebuild a split after a removal in the first child: if that child
became an empty leaf it is collapsed into (replaced by) its sibling. -/
def splitCollapseL (d : SplitDir) (fr : ℚ) (a b : DockNode) : DockNode :=
  if a = DockNode.leaf [] then b else DockNode.split d fr a b

/-- Rebuild a split after a removal in the second child; as
`splitCollapseL`. -/
def splitCollapseR (d : SplitDir) (fr : ℚ) (a b : DockNode) : DockNode :=
  if b = DockNode.leaf [] then a else DockNode.split d fr a b

/-- Modelled from the spec: `remove(location)` — delete the tab at the
location; a leaf that becomes empty is collapsed into its sibling (the
root leaf, having no sibling, stays).  On locations that do not point
into a leaf the tree is unchanged. -/
def DockNode.removeTabAt : DockNode → List Bool → Nat → DockNode
  | .leaf ts, _, i => .leaf (ts.eraseIdx i)
  | .split d fr a b, [], _ => .split d fr a b
  | .split d fr a b, false :: p, i => splitCollapseL d fr (a.removeTabAt p i) b
  | .split d fr a b, true :: p, i => splitCollapseR d fr a (b.removeTabAt p i)

/-- The node at a path, if the path exists. -/
def DockNode.getAt : DockNode → List Bool → Option DockNode
  | nd, [] => some nd
  | .leaf _, _ :: _ => none
  | .split _ _ a _, false :: p => a.getAt p
  | .split _ _ _ b, true :: p => b.getAt p

/-- Replace the node at a path (no-op on dangling paths). -/
def DockNode.setAt : DockNode → List Bool → DockNode → DockNode
  | _, [], r => r
  | .leaf ts, _ :: _, _ => .leaf ts
  | .split d fr a b, false :: p, r => .split d fr (a.setAt p r) b
  | .split d fr a b, true :: p, r => .split d fr a (b.setAt p r)

/-- Append a tab to the leaf at the given path, if the path points at a
leaf. -/
def DockNode.pushAt? : DockNode → List Bool → String → Option DockNode
  | .leaf ts, [], n => some (.leaf (ts ++ [n]))
  | .leaf _, _ :: _, _ => none
  | .split _ _ _ _, [], _ => none
  | .split d fr a b, false :: p, n => (a.pushAt? p n).map (fun a2 => .split d fr a2 b)
  | .split d fr a b, true :: p, n => (b.pushAt? p n).map (fun b2 => .split d fr a b2)

/-- Append a tab to the first (root-most, first-child-first) leaf. -/
def DockNode.pushFirstLeaf : DockNode → String → DockNode
  | .leaf ts, n => .leaf (ts ++ [n])
  | .split d fr a b, n => .split d fr (a.pushFirstLeaf n) b

/-- Does the path point at a leaf of the tree? -/
def DockNode.isLeafAt (nd : DockNode) (p : List Bool) : Bool :=
  match nd.getAt p with
  | some (.leaf _) => true
  | _ => false

/-- Modelled from the spec: the tab registry — the tree plus the
focused-leaf pointer (spec §9: the "current focus" made explicit). -/
structure DockTree where
  root : DockNode
  focused : Option (List Bool)
deriving DecidableEq

/-- `Tree::find_tab`. -/
def DockTree.findTab (t : DockTree) (n : String) : Option (List Bool × Nat) :=
  t.root.findTabNode n

/-- `Tree::remove_tab(location)`; a focus pointer that no longer points
at a leaf afterwards is dropped. -/
def DockTree.removeTab (t : DockTree) (loc : List Bool × Nat) : DockTree :=
  let r := t.root.removeTabAt loc.1 loc.2
  { root := r,
    focused := match t.focused with
      | some f => if r.isLeafAt f then some f else none
      | none => none }

/-- Modelled from the spec: `insert(name)`
(`Tree::push_to_focused_leaf`) — append to the currently focused leaf,
or to the root/first leaf if none is focused. -/
def DockTree.push (t : DockTree) (n : String) : DockTree :=
  match t.focused with
  | some f =>
    match t.root.pushAt? f n with
    | some r => { root := r, focused := some f }
    | none => { root := t.root.pushFirstLeaf n, focused := t.focused }
  | none => { root := t.root.pushFirstLeaf n, focused := none }

/-- One click on a tab's entry in the `Window` menu of `update_ui`:

```rust
let tab_in_docktree = docktree.find_tab(&tab.to_string());
if ... clicked() {
    if let Some(index) = tab_in_docktree {
        docktree.remove_tab(index);
    } else {
        docktree.push_to_focused_leaf(tab.to_string());
    }
}
```
-/
def DockTree.toggleTab (t : DockTree) (n : String) : DockTree :=
  match t.findTab n with
  | some loc => t.removeTab loc
  | none => t.push n

/-- A sequence of menu toggle clicks, applied in order. -/
def applyToggles (ops : List String) (t : DockTree) : DockTree :=
  ops.foldl DockTree.toggleTab t

/-- Modelled from the spec: `split(location, direction, proportion,
new_tabs)` — divide the node at the location into two children along the
direction, moving `new_tabs` into the new child.  Returns the tree and
the pair `[old, new]` of child locations (as `egui_dock`'s `split_left`
and `split_below` do); the new node becomes the focused one.  For
`left` the new child is the first child, for `below` the second. -/
def DockTree.splitAt (t : DockTree) (p : List Bool) (d : SplitDir) (fr : ℚ)
    (newTabs : List String) : DockTree × (List Bool × List Bool) :=
  match t.root.getAt p with
  | some old =>
    match d with
    | .left =>
      ({ root := t.root.setAt p (.split d fr (.leaf newTabs) old),
         focused := some (p ++ [false]) },
       (p ++ [true], p ++ [false]))
    | .below =>
      ({ root := t.root.setAt p (.split d fr old (.leaf newTabs)),
         focused := some (p ++ [true]) },
       (p ++ [false], p ++ [true]))
  | none => (t, (p, p))

/-- `setup_docktree`:

```rust
let mut tree = Tree::new(vec!["Viewport".to_owned(), "Tab 1".to_owned()]);
let [a, b] = tree.split_left(NodeIndex::root(), 0.3, vec!["Scene Control".to_owned()]);
let [_, _] = tree.split_below(a, 0.7, vec!["Tab 2".to_owned()]);
let [_, _] = tree.split_below(b, 0.5, vec!["Tab 3".to_owned()]);
```
-/
def initialDockTree : DockTree :=
  let t0 : DockTree := { root := .leaf ["Viewport", "Tab 1"], focused := some [] }
  let s1 := t0.splitAt [] .left (3/10) ["Scene Control"]
  let s2 := (s1.1.splitAt s1.2.1 .below (7/10) ["Tab 2"]).1
  let s3 := (s2.splitAt s1.2.2 .below (1/2) ["Tab 3"]).1
  s3

/-- The no-duplicates invariant: every tab name occurs at most once in
the registry. -/
def TabsAtMostOnce (t : DockTree) : Prop :=
  ∀ m : String, countTab m t.root.allTabs ≤ 1

/-! ## `update_ui` resource access

```rust
let viewport_image = image_assets.get_mut(&viewport).expect("Could not get viewport image");
let viewport_tex_id = contexts.image_id(&viewport).expect("Could not get viewport texture ID");
let window_scale_factor = window.get_single().unwrap().scale_factor();
let cube_material = material_assets.get_mut(material_handle.get_single().unwrap()).unwrap();
```

An `expect`/`unwrap` panic aborts the program; it is modelled by a
`none` result of `updateUiPrologue`. -/

/-- Association-list lookup, modelling `Assets::get_mut` and the egui
user-texture map (`EguiContexts::image_id`): handles are `Nat` ids. -/
def lookupList {β : Type} : List (Nat × β) → Nat → Option β
  | [], _ => none
  | (k, v) :: l, hdl => if k = hdl then some v else lookupList l hdl

/-- `Query::get_single`: succeeds exactly when the query matches exactly
one item (`Err`, hence `unwrap` panic, on zero or several). -/
def getSingle {β : Type} : List β → Option β
  | [x] => some x
  | _ => none

/-- The ECS state `update_ui` reads: the image assets, the `Viewport`
resource's handle, the egui-registered texture handles, the primary
windows (each carrying its scale factor after `as u32`), the material
handles of the entities matching
`Query<&mut Handle<StandardMaterial>, With<ExampleCube>>`, and the
material assets. -/
structure EcsEnv where
  images : List (Nat × Image)
  viewportHandle : Nat
  eguiTextures : List (Nat × Nat)
  primaryWindows : List Nat
  cubeMaterialHandles : List Nat
  materials : List (Nat × Material)

/-- The resource-access prologue of `update_ui`, in source order; `none`
models a panic (`expect`/`unwrap` on a missing value). -/
def updateUiPrologue (env : EcsEnv) : Option (Image × Nat × Nat × Material) :=
  (lookupList env.images env.viewportHandle).bind fun img =>
  (lookupList env.eguiTextures env.viewportHandle).bind fun tex =>
  (getSingle env.primaryWindows).bind fun win =>
  (getSingle env.cubeMaterialHandles).bind fun hdl =>
  (lookupList env.materials hdl).map fun mat => (img, tex, win, mat)

/-- A fully initialized ECS state: the viewport image asset, its egui
texture registration, one primary window, one cube entity, and its
material asset are all present and unique. -/
def healthyEnv : EcsEnv :=
  { images := [(0, startupImage)],
    viewportHandle := 0,
    eguiTextures := [(0, 7)],
    primaryWindows := [1],
    cubeMaterialHandles := [3],
    materials := [(3, initialCubeMaterial)] }

/-! ## Theorems -/

/-! ### Basic resize lemmas -/

theorem listResize_length (l : List Nat) (n : Nat) : (listResize l n).length = n := by
  simp [listResize]
  omega

theorem listResize_of_length_eq {l : List Nat} {n : Nat} (h : l.length = n) :
    listResize l n = l := by
  subst h
  simp [listResize]

theorem Image.resize_resize (img : Image) (w h : Nat) :
    (img.resize w h).resize w h = img.resize w h := by
  simp [Image.resize, listResize_of_length_eq, listResize_length]

/-- C1: `sync_size` is idempotent on the texture state: a second call with
the same observed panel size leaves the texture's dimensions and contents
(and hence the buffer length) unchanged, for every window display scale
factor.  (When the scale factor is not 1 the second call may re-enter the
resize branch, but it resizes to the identical extent, which changes
nothing.) -/
theorem sync_size_idempotent (scale obsW obsH : Nat) (img : Image) :
    syncSize scale obsW obsH (syncSize scale obsW obsH img) =
      syncSize scale obsW obsH img := by
  unfold syncSize
  split_ifs <;> first | rfl | exact Image.resize_resize ..

/-- C8: when the texture's dimensions already equal the observed panel
size (converted to whole pixels), rendering the `"Viewport"` tab leaves
the whole `TabViewer` state — in particular the texture's dimensions and
contents — unchanged: the resize branch is not entered, so no
reallocation happens. -/
theorem sync_size_noop_when_matching (st : TabViewerState) (inp : UiInput)
    (h : (st.viewport_image.width, st.viewport_image.height) =
      (inp.avail_width, inp.avail_height)) :
    (tabViewerUi st inp "Viewport").1 = st := by
  simp only [tabViewerUi, syncSize, h, ne_eq, not_true_eq_false, if_false]

theorem sync_size_noop_when_matching_witness :
    ((matchedViewportState.viewport_image.width,
      matchedViewportState.viewport_image.height) =
      (matchedViewportInput.avail_width, matchedViewportInput.avail_height)) ∧
    (tabViewerUi matchedViewportState matchedViewportInput "Viewport").1 =
      matchedViewportState :=
  ⟨by decide, sync_size_noop_when_matching _ _ (by decide)⟩

/-- C2: evaluation of the code at the failing input.  With window scale
factor 2 and the texture currently at 800×600 physical pixels, rendering
the `"Viewport"` tab with an observed panel size of 800×600 leaves the
texture at 800×600 — not at the required `800*2 × 600*2` — because the
resize guard compares the texture's physical dimensions against the
*unscaled* observed size while the reallocation target is the *scaled*
size. -/
theorem sync_size_scale_factor_bug :
    ((tabViewerUi scaleTwoViewportState viewport800Input "Viewport").1.viewport_image.width,
     (tabViewerUi scaleTwoViewportState viewport800Input "Viewport").1.viewport_image.height)
      = (800, 600) ∧
    ((800 * 2 : Nat), (600 * 2 : Nat)) ≠ ((800 : Nat), (600 : Nat)) := by
  decide

/-- C4: the tab render dispatch is total — it is a Lean function defined
on every string tab name — and every name other than `"Viewport"` and
`"Scene Control"`, including names never inserted, takes the default
branch, which emits exactly the plain text label showing the tab's name
and leaves the state untouched. -/
theorem tab_dispatch_total (st : TabViewerState) (inp : UiInput) (tab : String) :
    (∃ out, tabViewerUi st inp tab = out) ∧
    (tab ≠ "Viewport" → tab ≠ "Scene Control" →
      tabViewerUi st inp tab = (st, [DrawCmd.labelText ("Content of " ++ tab)])) := by
  refine ⟨⟨_, rfl⟩, fun h1 h2 => ?_⟩
  unfold tabViewerUi
  split <;> simp_all

theorem tab_dispatch_total_witness :
    (("Fresh Tab" : String) ≠ "Viewport") ∧
    (("Fresh Tab" : String) ≠ "Scene Control") ∧
    tabViewerUi matchedViewportState matchedViewportInput "Fresh Tab" =
      (matchedViewportState, [DrawCmd.labelText ("Content of " ++ "Fresh Tab")]) :=
  ⟨by decide, by decide,
    (tab_dispatch_total matchedViewportState matchedViewportInput "Fresh Tab").2
      (by decide) (by decide)⟩

/-- C10: rendering the `"Scene Control"` tab writes `base_color`
unconditionally.  When the color control reports no edit the written
value is the round trip of the prior value through the 4-component RGBA
array, that round trip is the identity (every color this program stores
is of the plain `Rgba` variant, whose `as_rgba_f32`/`into` conversions
are exact), and the material's other fields are unchanged. -/
theorem scene_control_writes_color_every_frame (mat : Material) :
    (sceneControlTab mat none).1.base_color = colorFromArray mat.base_color.asRgbaF32 ∧
    (sceneControlTab mat none).1.base_color = mat.base_color ∧
    (sceneControlTab mat none).1.reflectance = mat.reflectance ∧
    (sceneControlTab mat none).1.unlit = mat.unlit :=
  ⟨rfl, rfl, rfl, rfl⟩

theorem rotateX_rotateX (a b : ℝ) (q : Quat) :
    rotateX a (rotateX b q) = rotateX (a + b) q := by
  ext <;>
    simp [rotateX, fromRotationX, quatMul, add_div, Real.cos_add, Real.sin_add] <;>
    ring

theorem rotateZ_rotateZ (a b : ℝ) (q : Quat) :
    rotateZ a (rotateZ b q) = rotateZ (a + b) q := by
  ext <;>
    simp [rotateZ, fromRotationZ, quatMul, add_div, Real.cos_add, Real.sin_add] <;>
    ring

theorem rotateX_zero (q : Quat) : rotateX 0 q = q := by
  ext <;> simp [rotateX, fromRotationX, quatMul]

theorem rotateZ_zero (q : Quat) : rotateZ 0 q = q := by
  ext <;> simp [rotateZ, fromRotationZ, quatMul]

theorem sum_map_const_mul (r : ℝ) (ds : List ℝ) :
    (ds.map (fun d => r * d)).sum = r * ds.sum := by
  induction ds with
  | nil => simp
  | cons d ds ih => simp [ih, mul_add]

theorem rotateXFrames_eq (ds : List ℝ) (q : Quat) :
    rotateXFrames ds q = rotateX (1.5 * ds.sum) q := by
  induction ds generalizing q with
  | nil => simp [rotateXFrames, rotateX_zero]
  | cons d ds ih =>
    show rotateXFrames ds (rotateX (1.5 * d) q) = _
    rw [ih, rotateX_rotateX]
    congr 1
    simp [mul_add]
    ring

theorem rotateZFrames_eq (ds : List ℝ) (q : Quat) :
    rotateZFrames ds q = rotateZ (1.3 * ds.sum) q := by
  induction ds generalizing q with
  | nil => simp [rotateZFrames, rotateZ_zero]
  | cons d ds ih =>
    show rotateZFrames ds (rotateZ (1.3 * d) q) = _
    rw [ih, rotateZ_rotateZ]
    congr 1
    simp [mul_add]
    ring

/-- C3 amended: for every partition of the elapsed time into per-frame
deltas, the per-frame angle increments fed to `rotate_x` sum to
`1.5 * T` and those fed to `rotate_z` sum to `1.3 * T`, and the update
restricted to a single axis is independent of the slicing (it equals the
single rotation by the summed angle).  The full two-axis orientation
update, however, is *not* slicing-independent (see the counterexample):
x- and z-rotations do not commute. -/
theorem rotate_cube_per_axis_additive (ds : List ℝ) (q : Quat) :
    (ds.map (fun d => 1.5 * d)).sum = 1.5 * ds.sum ∧
    (ds.map (fun d => 1.3 * d)).sum = 1.3 * ds.sum ∧
    rotateXFrames ds q = rotateX (1.5 * ds.sum) q ∧
    rotateZFrames ds q = rotateZ (1.3 * ds.sum) q :=
  ⟨sum_map_const_mul 1.5 ds, sum_map_const_mul 1.3 ds,
    rotateXFrames_eq ds q, rotateZFrames_eq ds q⟩

theorem rotateCubeFrames_pair_y (d : ℝ) :
    (rotateCubeFrames [d, d] quatId).y =
      2 * (Real.sin (1.5 * d / 2) * Real.cos (1.5 * d / 2) *
        (Real.sin (1.3 * d / 2) * Real.cos (1.3 * d / 2))) := by
  simp [rotateCubeFrames, rotateCubeStep, rotateX, rotateZ, fromRotationX,
    fromRotationZ, quatMul, quatId]
  ring

theorem rotateCubeFrames_single_y (d : ℝ) :
    (rotateCubeFrames [d] quatId).y =
      Real.sin (1.3 * d / 2) * Real.sin (1.5 * d / 2) := by
  simp [rotateCubeFrames, rotateCubeStep, rotateX, rotateZ, fromRotationX,
    fromRotationZ, quatMul, quatId]

/-- C3 counterexample: slicing the same total elapsed time `T = 2` into
two frames of `1` second yields a cube orientation different from a
single frame of `2` seconds (their quaternions differ in the `y`
component), starting from the identity orientation with no GUI
interaction. -/
theorem rotate_cube_not_slicing_independent :
    rotateCubeFrames [(1 : ℝ), 1] quatId ≠ rotateCubeFrames [(2 : ℝ)] quatId := by
  have hpi := Real.pi_gt_three
  have hsA : 0 < Real.sin 0.75 :=
    Real.sin_pos_of_pos_of_lt_pi (by norm_num) (by linarith)
  have hcA : 0 < Real.cos 0.75 :=
    Real.cos_pos_of_mem_Ioo (Set.mem_Ioo.mpr ⟨by linarith, by linarith⟩)
  have hsB : 0 < Real.sin 0.65 :=
    Real.sin_pos_of_pos_of_lt_pi (by norm_num) (by linarith)
  have hcB : 0 < Real.cos 0.65 :=
    Real.cos_pos_of_mem_Ioo (Set.mem_Ioo.mpr ⟨by linarith, by linarith⟩)
  intro h
  have hy := congrArg Quat.y h
  rw [rotateCubeFrames_pair_y, rotateCubeFrames_single_y] at hy
  rw [show (1.5 : ℝ) * 1 / 2 = 0.75 by norm_num,
      show (1.3 : ℝ) * 1 / 2 = 0.65 by norm_num,
      show (1.3 : ℝ) * 2 / 2 = 2 * 0.65 by norm_num,
      show (1.5 : ℝ) * 2 / 2 = 2 * 0.75 by norm_num,
      Real.sin_two_mul, Real.sin_two_mul] at hy
  nlinarith [mul_pos (mul_pos hsA hcA) (mul_pos hsB hcB), hy]

/-! ### Counting lemmas for the tab registry -/

theorem countTab_append (n : String) (l1 l2 : List String) :
    countTab n (l1 ++ l2) = countTab n l1 + countTab n l2 := by
  induction l1 with
  | nil => simp [countTab]
  | cons t ts ih => simp [countTab, ih]; omega

theorem firstIdx_eq_none_iff (n : String) (l : List String) :
    firstIdx n l = none ↔ countTab n l = 0 := by
  induction l with
  | nil => simp [firstIdx, countTab]
  | cons t ts ih =>
    by_cases h : t = n
    · simp [firstIdx, countTab, h]
    · simp [firstIdx, countTab, h, ih]

theorem countTab_eraseIdx (n : String) (ts : List String) (i : Nat)
    (h : firstIdx n ts = some i) (m : String) :
    countTab m ts = countTab m (ts.eraseIdx i) + (if m = n then 1 else 0) := by
  induction ts generalizing i with
  | nil => simp [firstIdx] at h
  | cons t ts ih =>
    by_cases ht : t = n
    · rw [firstIdx, if_pos ht] at h
      obtain rfl : 0 = i := by injection h
      subst ht
      rcases eq_or_ne m t with rfl | hmt
      · simp [countTab]; omega
      · simp [countTab, hmt, (Ne.symm hmt : ¬ t = m)]
    · rw [firstIdx, if_neg ht] at h
      obtain ⟨j, hj, rfl⟩ : ∃ j, firstIdx n ts = some j ∧ j + 1 = i := by
        cases hfi : firstIdx n ts with
        | none => rw [hfi] at h; simp at h
        | some j => rw [hfi] at h; simp at h; exact ⟨j, rfl, h⟩
      simp only [List.eraseIdx_cons_succ, countTab]
      rw [ih j hj]
      omega

theorem countTab_splitCollapseL (d : SplitDir) (fr : ℚ) (a b : DockNode) (m : String) :
    countTab m (splitCollapseL d fr a b).allTabs =
      countTab m a.allTabs + countTab m b.allTabs := by
  unfold splitCollapseL
  split_ifs with h
  · subst h; simp [DockNode.allTabs, countTab]
  · simp [DockNode.allTabs, countTab_append]

theorem countTab_splitCollapseR (d : SplitDir) (fr : ℚ) (a b : DockNode) (m : String) :
    countTab m (splitCollapseR d fr a b).allTabs =
      countTab m a.allTabs + countTab m b.allTabs := by
  unfold splitCollapseR
  split_ifs with h
  · subst h; simp [DockNode.allTabs, countTab]
  · simp [DockNode.allTabs, countTab_append]

theorem findTabNode_eq_none_iff (nd : DockNode) (n : String) :
    nd.findTabNode n = none ↔ countTab n nd.allTabs = 0 := by
  induction nd with
  | leaf ts =>
    simp [DockNode.findTabNode, DockNode.allTabs, firstIdx_eq_none_iff]
  | split d fr a b iha ihb =>
    simp only [DockNode.findTabNode, DockNode.allTabs, countTab_append]
    cases ha : a.findTabNode n with
    | some pi =>
      obtain ⟨p1, i1⟩ := pi
      have hca : countTab n a.allTabs ≠ 0 := by
        intro hc
        rw [iha.mpr hc] at ha
        cases ha
      simp [hca]
    | none =>
      have hca : countTab n a.allTabs = 0 := iha.mp ha
      cases hb : b.findTabNode n with
      | some pi =>
        obtain ⟨p1, i1⟩ := pi
        have hcb : countTab n b.allTabs ≠ 0 := by
          intro hc
          rw [ihb.mpr hc] at hb
          cases hb
        simp [hca, hcb]
      | none =>
        have hcb : countTab n b.allTabs = 0 := ihb.mp hb
        simp [hca, hcb]

theorem countTab_removeTabAt (nd : DockNode) (n : String) (p : List Bool) (i : Nat)
    (h : nd.findTabNode n = some (p, i)) (m : String) :
    countTab m nd.allTabs =
      countTab m (nd.removeTabAt p i).allTabs + (if m = n then 1 else 0) := by
  induction nd generalizing p i with
  | leaf ts =>
    simp only [DockNode.findTabNode, Option.map_eq_some'] at h
    obtain ⟨j, hj, heq⟩ := h
    obtain ⟨rfl, rfl⟩ : ([] : List Bool) = p ∧ j = i := by
      injection heq with h1 h2
      exact ⟨h1, h2⟩
    simpa [DockNode.removeTabAt, DockNode.allTabs] using countTab_eraseIdx n ts _ hj m
  | split d fr a b iha ihb =>
    simp only [DockNode.findTabNode] at h
    cases ha : a.findTabNode n with
    | some pi =>
      obtain ⟨p1, i1⟩ := pi
      rw [ha] at h
      simp only [Option.some.injEq, Prod.mk.injEq] at h
      obtain ⟨rfl, rfl⟩ : false :: p1 = p ∧ i1 = i := h
      simp only [DockNode.allTabs, countTab_append, DockNode.removeTabAt,
        countTab_splitCollapseL]
      rw [iha p1 i1 ha]
      omega
    | none =>
      rw [ha] at h
      cases hb : b.findTabNode n with
      | some pi =>
        obtain ⟨p1, i1⟩ := pi
        rw [hb] at h
        simp only [Option.some.injEq, Prod.mk.injEq] at h
        obtain ⟨rfl, rfl⟩ : true :: p1 = p ∧ i1 = i := h
        simp only [DockNode.allTabs, countTab_append, DockNode.removeTabAt,
          countTab_splitCollapseR]
        rw [ihb p1 i1 hb]
        omega
      | none =>
        rw [hb] at h
        cases h

theorem countTab_pushAt? (nd : DockNode) (p : List Bool) (n : String) (r : DockNode)
    (h : nd.pushAt? p n = some r) (m : String) :
    countTab m r.allTabs = countTab m nd.allTabs + (if m = n then 1 else 0) := by
  induction nd generalizing p r with
  | leaf ts =>
    cases p with
    | nil =>
      obtain rfl : DockNode.leaf (ts ++ [n]) = r := by injection h
      rcases eq_or_ne m n with rfl | hmn
      · simp [DockNode.allTabs, countTab_append, countTab]
      · simp [DockNode.allTabs, countTab_append, countTab, hmn,
          (Ne.symm hmn : ¬ n = m)]
    | cons x p => simp [DockNode.pushAt?] at h
  | split d fr a b iha ihb =>
    cases p with
    | nil => simp [DockNode.pushAt?] at h
    | cons x p =>
      cases x with
      | false =>
        simp only [DockNode.pushAt?, Option.map_eq_some'] at h
        obtain ⟨a2, ha2, rfl⟩ := h
        simp only [DockNode.allTabs, countTab_append, iha p a2 ha2]
        omega
      | true =>
        simp only [DockNode.pushAt?, Option.map_eq_some'] at h
        obtain ⟨b2, hb2, rfl⟩ := h
        simp only [DockNode.allTabs, countTab_append, ihb p b2 hb2]
        omega

theorem countTab_pushFirstLeaf (nd : DockNode) (n m : String) :
    countTab m (nd.pushFirstLeaf n).allTabs =
      countTab m nd.allTabs + (if m = n then 1 else 0) := by
  induction nd with
  | leaf ts =>
    rcases eq_or_ne m n with rfl | hmn
    · simp [DockNode.pushFirstLeaf, DockNode.allTabs, countTab_append, countTab]
    · simp [DockNode.pushFirstLeaf, DockNode.allTabs, countTab_append, countTab,
        hmn, (Ne.symm hmn : ¬ n = m)]
  | split d fr a b iha ihb =>
    simp only [DockNode.pushFirstLeaf, DockNode.allTabs, countTab_append, iha]
    omega

theorem countTab_push (t : DockTree) (n m : String) :
    countTab m (t.push n).root.allTabs =
      countTab m t.root.allTabs + (if m = n then 1 else 0) := by
  unfold DockTree.push
  cases hf : t.focused with
  | none => simp [countTab_pushFirstLeaf]
  | some f =>
    cases hp : t.root.pushAt? f n with
    | none => simp [hp, countTab_pushFirstLeaf]
    | some r => simpa [hp] using countTab_pushAt? t.root f n r hp m

theorem countTab_removeTab_of_findTab (t : DockTree) (n : String)
    (loc : List Bool × Nat) (h : t.findTab n = some loc) (m : String) :
    countTab m t.root.allTabs =
      countTab m (t.removeTab loc).root.allTabs + (if m = n then 1 else 0) := by
  obtain ⟨p, i⟩ := loc
  exact countTab_removeTabAt t.root n p i h m

theorem findTab_eq_none_iff (t : DockTree) (n : String) :
    t.findTab n = none ↔ countTab n t.root.allTabs = 0 :=
  findTabNode_eq_none_iff t.root n

theorem findTab_isSome_of_countTab (t : DockTree) (n : String)
    (h : countTab n t.root.allTabs ≠ 0) : (t.findTab n).isSome = true := by
  cases hf : t.findTab n with
  | none => exact absurd ((findTab_eq_none_iff t n).mp hf) h
  | some l => rfl

theorem toggleTab_preserves (t : DockTree) (n : String)
    (h : TabsAtMostOnce t) : TabsAtMostOnce (t.toggleTab n) := by
  intro m
  cases hf : t.findTab n with
  | some loc =>
    simp only [DockTree.toggleTab, hf]
    have h1 := countTab_removeTab_of_findTab t n loc hf m
    have h2 := h m
    omega
  | none =>
    simp only [DockTree.toggleTab, hf]
    have hc : countTab n t.root.allTabs = 0 := (findTab_eq_none_iff t n).mp hf
    have hp := countTab_push t n m
    rcases eq_or_ne m n with rfl | hmn
    · rw [hc, if_pos rfl] at hp
      omega
    · rw [if_neg hmn] at hp
      have h2 := h m
      omega

theorem applyToggles_preserves (ops : List String) (t : DockTree)
    (h : TabsAtMostOnce t) : TabsAtMostOnce (applyToggles ops t) := by
  induction ops generalizing t with
  | nil => exact h
  | cons n ops ih => exact ih _ (toggleTab_preserves t n h)

theorem countTab_eq_zero_of_forall (ts : List String) (m : String)
    (h : ∀ x ∈ ts, ¬ x = m) : countTab m ts = 0 := by
  induction ts with
  | nil => simp [countTab]
  | cons t ts ih =>
    simp only [countTab, h t (by simp)]
    simpa using ih (fun x hx => h x (by simp [hx]))

theorem countTab_le_one_of_pairwise (l : List String)
    (h : l.Pairwise (fun a b => a ≠ b)) (m : String) : countTab m l ≤ 1 := by
  induction l with
  | nil => simp [countTab]
  | cons t ts ih =>
    rw [List.pairwise_cons] at h
    by_cases htm : t = m
    · subst htm
      have : countTab t ts = 0 :=
        countTab_eq_zero_of_forall ts t (fun x hx hxt => (h.1 x hx) hxt.symm)
      simp [countTab, this]
    · simp only [countTab, if_neg htm, Nat.zero_add]
      exact ih h.2

theorem initialDockTree_tabsAtMostOnce : TabsAtMostOnce initialDockTree := by
  intro m
  have h : initialDockTree.root.allTabs =
      ["Scene Control", "Tab 3", "Viewport", "Tab 1", "Tab 2"] := by decide
  rw [h]
  exact countTab_le_one_of_pairwise _ (by decide) m

/-- C9: starting from the initial layout, after every sequence of menu
toggle clicks each of the five toggleable tab names occurs at most once
in the tab tree — a click inserts a name only when `find` for that name
returns nothing. -/
theorem menu_toggle_no_duplicates (ops : List String) :
    countTab "Viewport" (applyToggles ops initialDockTree).root.allTabs ≤ 1 ∧
    countTab "Scene Control" (applyToggles ops initialDockTree).root.allTabs ≤ 1 ∧
    countTab "Tab 1" (applyToggles ops initialDockTree).root.allTabs ≤ 1 ∧
    countTab "Tab 2" (applyToggles ops initialDockTree).root.allTabs ≤ 1 ∧
    countTab "Tab 3" (applyToggles ops initialDockTree).root.allTabs ≤ 1 := by
  have h := applyToggles_preserves ops initialDockTree initialDockTree_tabsAtMostOnce
  exact ⟨h _, h _, h _, h _, h _⟩

/-- C5: on every state reachable from the initial layout by a sequence
of menu-toggle operations, `find(name)` returns a location immediately
after `insert(name)`, and returns nothing immediately after `remove` of
the location that `find` returned for `name`. -/
theorem find_insert_remove_round_trip (ops : List String) (name : String) :
    (DockTree.findTab (DockTree.push (applyToggles ops initialDockTree) name) name).isSome
      = true ∧
    (∀ loc, DockTree.findTab (applyToggles ops initialDockTree) name = some loc →
      DockTree.findTab (DockTree.removeTab (applyToggles ops initialDockTree) loc) name
        = none) := by
  constructor
  · apply findTab_isSome_of_countTab
    rw [countTab_push, if_pos rfl]
    omega
  · intro loc hloc
    have h1 := countTab_removeTab_of_findTab _ name loc hloc name
    have h2 := applyToggles_preserves ops initialDockTree initialDockTree_tabsAtMostOnce name
    apply (findTab_eq_none_iff _ _).mpr
    rw [if_pos rfl] at h1
    omega

theorem find_insert_remove_round_trip_witness :
    (DockTree.findTab (DockTree.push initialDockTree "Tab 2") "Tab 2").isSome = true ∧
    DockTree.findTab initialDockTree "Tab 2" = some ([true, true], 0) ∧
    DockTree.findTab (DockTree.removeTab initialDockTree ([true, true], 0)) "Tab 2"
      = none :=
  ⟨(find_insert_remove_round_trip [] "Tab 2").1, by decide,
    (find_insert_remove_round_trip [] "Tab 2").2 ([true, true], 0) (by decide)⟩

/-- C7: after `setup_docktree` the registry holds exactly the five tabs
`"Viewport"`, `"Tab 1"`, `"Scene Control"`, `"Tab 2"`, `"Tab 3"` in its
fixed split layout and `find` succeeds for each of them; after toggling
`"Tab 2"` off and then on via the menu, `"Tab 2"` sits in some leaf (the
focused `"Tab 3"` leaf — not its original position) and `find` succeeds
for it. -/
theorem initial_layout_and_tab2_toggle :
    initialDockTree.root.allTabs.Perm
      ["Viewport", "Tab 1", "Scene Control", "Tab 2", "Tab 3"] ∧
    (initialDockTree.findTab "Viewport").isSome = true ∧
    (initialDockTree.findTab "Tab 1").isSome = true ∧
    (initialDockTree.findTab "Scene Control").isSome = true ∧
    (initialDockTree.findTab "Tab 2").isSome = true ∧
    (initialDockTree.findTab "Tab 3").isSome = true ∧
    (((initialDockTree.toggleTab "Tab 2").toggleTab "Tab 2").findTab "Tab 2").isSome
      = true ∧
    ((initialDockTree.toggleTab "Tab 2").toggleTab "Tab 2").root.getAt [false, true]
      = some (DockNode.leaf ["Tab 3", "Tab 2"]) := by
  decide

/-- C6: given a present and unique primary window, the per-frame UI
update panics (terminates the program) exactly when the viewport texture
asset is missing, or its registered GUI display handle is missing, or
the cube-entity query does not yield exactly one entity (missing or
duplicated), or the single entity's material asset is missing;
conversely, when all of these are present and unique it does not
terminate the program. -/
theorem update_ui_panics_iff (env : EcsEnv)
    (hwin : getSingle env.primaryWindows ≠ none) :
    updateUiPrologue env = none ↔
      lookupList env.images env.viewportHandle = none ∨
      lookupList env.eguiTextures env.viewportHandle = none ∨
      getSingle env.cubeMaterialHandles = none ∨
      (∃ hdl, getSingle env.cubeMaterialHandles = some hdl ∧
        lookupList env.materials hdl = none) := by
  unfold updateUiPrologue
  cases h1 : lookupList env.images env.viewportHandle with
  | none => simp [h1]
  | some img =>
    cases h2 : lookupList env.eguiTextures env.viewportHandle with
    | none => simp [h2]
    | some tex =>
      cases h3 : getSingle env.primaryWindows with
      | none => exact absurd h3 hwin
      | some win =>
        cases h4 : getSingle env.cubeMaterialHandles with
        | none => simp [h4]
        | some hdl =>
          cases h5 : lookupList env.materials hdl with
          | none => simp [h4, h5]
          | some mat => simp [h4, h5]

theorem update_ui_panics_iff_witness :
    getSingle healthyEnv.primaryWindows ≠ none ∧
    (updateUiPrologue healthyEnv = none ↔
      lookupList healthyEnv.images healthyEnv.viewportHandle = none ∨
      lookupList healthyEnv.eguiTextures healthyEnv.viewportHandle = none ∨
      getSingle healthyEnv.cubeMaterialHandles = none ∨
      (∃ hdl, getSingle healthyEnv.cubeMaterialHandles = some hdl ∧
        lookupList healthyEnv.materials hdl = none)) :=
  ⟨by decide, update_ui_panics_iff healthyEnv (by decide)⟩

end DockingViewport
